import Mathlib

/-!
Verification of the micropAsyncWeb HTTP dispatcher (src/micropAsyncWeb.py).

The development is a shallow embedding of the module: strings are lists of
characters (`Str`), the per-connection byte streams are modelled as the list
of decoded lines handed to the dispatcher and the ordered list of write-call
payloads it produces, exceptions are an explicit `Except` result, and the
file system is a function from file names to open results.  Python `async`
suspension points have no observable effect on a single connection and are
erased.  The route table, request parsing, header parsing, wildcard
compilation and matching, handler-chain resolution and the full
`MicropAsyncWeb.handle` control flow are translated line by line from the
source.
-/

namespace Micro

/-- Strings of the model: Python `str` as a list of characters. -/
abbrev Str := List Char

/-- Shorthand to build a model string from a Lean string literal. -/
def s (x : String) : Str := x.toList

/-- The ASCII whitespace characters recognised by Python `str.split()` and
`str.strip()` with no arguments. -/
def isSpace (c : Char) : Bool :=
  c = ' ' || c = '\t' || c = '\n' || c = '\r' || c = '\x0b' || c = '\x0c'

/-- Worker for `pySplitWs`: `cur` is the current token, reversed. -/
def pySplitWsAux (cur : Str) : Str → List Str
  | [] => if cur = [] then [] else [cur.reverse]
  | c :: cs =>
    if isSpace c then
      if cur = [] then pySplitWsAux [] cs else cur.reverse :: pySplitWsAux [] cs
    else pySplitWsAux (c :: cur) cs

/-- Python `str.split()` with no separator: split on runs of whitespace,
discarding empty tokens (used on the request line in `Request.setup`). -/
def pySplitWs (x : Str) : List Str := pySplitWsAux [] x

/-- Python `str.split(sep)` for a one-character separator: always returns at
least one (possibly empty) piece. -/
def splitOnChar (sep : Char) : Str → List Str
  | [] => [[]]
  | c :: cs =>
    let r := splitOnChar sep cs
    if c = sep then [] :: r
    else
      match r with
      | [] => [[c]]
      | x :: xs => (c :: x) :: xs

/-- Python `str.strip()` with no argument: drop leading and trailing
whitespace (used on header values). -/
def pyStrip (x : Str) : Str :=
  ((x.dropWhile isSpace).reverse.dropWhile isSpace).reverse

/-- Decimal rendering of a status code, as Python `"%s" % code`. -/
def natStr (n : Nat) : Str := (Nat.repr n).toList

/-- The `errno` value `uerrno.ENOENT`. -/
def ENOENT : Nat := 2

/-- The `errno` value `uerrno.ECONNRESET`. -/
def ECONNRESET : Nat := 104

/-- The state of one `Request` object (class `Request`): the stream handles
(`read`/`write`/`close`) are modelled externally and omitted.  `Request.init`
is the state after `Request.__init__`, where `url`, `path`, `method` and
`version` still hold the class-level default empty strings and `headers`,
`route` and `params` were re-assigned to fresh empty containers. -/
structure Request where
  url : Str
  path : Str
  method : Str
  version : Str
  headers : List (Str × Str)
  route : Str
  params : List Str
deriving Repr, DecidableEq

/-- `Request()`: the freshly constructed request. -/
def Request.init : Request := ⟨[], [], [], [], [], [], []⟩

/-- The parsing part of `Request.setup`: decode the request line, split it on
whitespace; on anything but exactly three tokens return with the fields
untouched; otherwise store method, url, version and the path obtained by
`url.replace("?", "#").split("#")[0]`. -/
def Request.setup (r : Request) (line : Str) : Request :=
  match pySplitWs line with
  | [m, u, v] =>
    { r with
      method := m, url := u, version := v,
      path := (splitOnChar '#' (u.map fun c => if c = '?' then '#' else c)).headD [] }
  | _ => r

/-- `Request.getFilename`: `self.path.split("/")[-1]`. -/
def Request.getFilename (r : Request) : Str :=
  (splitOnChar '/' r.path).getLastD []

/-- `Request.getFileExtension`: `filename.split(".")[-1]`, defaulting the
argument to `getFilename()` when it is empty. -/
def Request.getFileExtension (r : Request) (filename : Str) : Str :=
  let f := if filename = [] then r.getFilename else filename
  (splitOnChar '.' f).getLastD []

/-- Exceptions that can cross the functions of the module.  `HttpError`
carries `(request, statusCode, reasonPhrase)` in the source; the request
component is the connection's own request object and is left implicit here
since every stream write already targets that one connection. -/
inductive Exc where
  | httpError (code : Nat) (reason : Str)
  | osError (errno : Nat)
  | other
deriving Repr, DecidableEq

/-- Result of `open()` plus the subsequent reads in `Response.sendFile`:
either the open call fails with an `OSError` errno, or it succeeds and the
file yields `chunks` (the successive non-empty `fileHandle.read` results,
whose size policy is resolved from the extension table) and then optionally a
read fault with the given errno. -/
inductive OpenRes where
  | err (errno : Nat)
  | ok (chunks : List Str) (readFault : Option Nat)

/-- The static-file boundary: file name to open result. -/
abbrev FS := Str → OpenRes

/-- The `mimeType` column of `Response.fileTypes` (the `binary` and
`blockSize` columns only shape how many bytes each chunk holds, which the
`FS` model already fixes). -/
def fileTypes : List (Str × Str) :=
  [(s "txt", s "text/plain"), (s "htm", s "text/html"), (s "html", s "text/html"),
   (s "css", s "text/css"), (s "js", s "text/javascript"),
   (s "json", s "application/json"), (s "ico", s "image/vnd.microsoft.icon"),
   (s "jpg", s "image/jpeg"), (s "png", s "image/png"), (s "gif", s "image/gif"),
   (s "webp", s "image/webp"), (s "ttf", s "font/ttf"), (s "otf", s "font/otf"),
   (s "woff", s "font/woff"), (s "woff2", s "font/woff2")]

/-- Mime type for an extension: the default `args` dictionary merged with the
`fileTypes` entry when the extension is known. -/
def mimeFor (ext : Str) : Str :=
  match fileTypes.find? (fun p => p.1 = ext) with
  | some p => p.2
  | none => s "application/octet-stream"

/-- The three header writes of a successful `Response.sendFile`:
`Response.start` (status line), the content-type line, `Response.startBody`. -/
def okWrites (mime : Str) : List Str :=
  [s "HTTP/1.1 200 OK\r\n", s "Content-type: " ++ mime ++ s "\r\n", s "\r\n"]

/-- `Response.error`: one write for status line plus blank line, one write
for the short HTML body. -/
def errorWrites (code : Nat) (reason : Str) : List Str :=
  [s "HTTP/1.1 " ++ natStr code ++ [' '] ++ reason ++ s "\r\n\r\n",
   s "<h1>" ++ reason ++ s "</h1>"]

/-- `Response.sendFile`: resolve the extension policy, open the file and
stream it; an `OSError` whose errno is `ENOENT` becomes
`HttpError(404, "File Not Found")`, any other `OSError` is re-raised. -/
def sendFile (fs : FS) (r : Request) (filename : Str) : List Str × Except Exc Unit :=
  let mime := mimeFor (r.getFileExtension filename)
  match fs filename with
  | .err e =>
    ([], .error (if e = ENOENT then .httpError 404 (s "File Not Found") else .osError e))
  | .ok chunks readFault =>
    (okWrites mime ++ chunks,
      match readFault with
      | none => .ok ()
      | some e =>
        .error (if e = ENOENT then .httpError 404 (s "File Not Found") else .osError e))

/-- A route handler: either a literal file-path string or a callable.  A
callable receives the file system and the request and yields its stream
writes together with either an exception or the next handler (Python
`None` = `Option.none`). -/
inductive Handler where
  | str (path : Str)
  | fn (f : (Str → OpenRes) → Request → List Str × Except Exc (Option Handler))

/-- Python truthiness of a handler value: `None` and the empty string are
falsy, every other string and every callable is truthy. -/
def handlerTruthy : Handler → Bool
  | .str p => decide (p ≠ [])
  | .fn _ => true

/-- `MicropAsyncWeb.generateOutput`: loop while the handler is truthy; a
string handler is served with `Response.sendFile` and terminates the chain; a
callable is invoked and its result continues the chain.  The fuel bounds the
number of callable invocations; `none` models a chain that is still running
when the fuel is spent. -/
def generateOutput (fs : FS) : Nat → Request → Option Handler →
    Option (List Str × Except Exc Unit)
  | _, _, none => some ([], .ok ())
  | fuel, req, some h =>
    if handlerTruthy h then
      match h with
      | .str p => some (sendFile fs req p)
      | .fn f =>
        match fuel with
        | 0 => none
        | Nat.succ fuel' =>
          match f fs req with
          | (out, .error e) => some (out, .error e)
          | (out, .ok next) =>
            match generateOutput fs fuel' req next with
            | none => none
            | some (out2, res) => some (out ++ out2, res)
    else some ([], .ok ())

/-- One element of the compiled pattern `"^" + route.replace("*", "([^/]+)") + "$"`:
a character of the route that is not `*` stands for itself, each `*` becomes
the capturing group `([^/]+)`. -/
inductive Tok where
  | lit (c : Char)
  | star
deriving Repr, DecidableEq

/-- `re.compile("^" + route.replace("*", "([^/]+)") + "$")`, as the token
sequence the anchored regex is built from. -/
def compileRoute (route : Str) : List Tok :=
  route.map fun c => if c = '*' then Tok.star else Tok.lit c

/-- True of characters the group `[^/]` accepts. -/
def nonSlash (c : Char) : Bool := decide (c ≠ '/')

/-- Matching of one `([^/]+)` group against the front of `xs`, greedily with
backtracking: try the candidate capture lengths from `n` down to `1`, each
capture being a non-empty all-non-slash front of `xs`, and continue with
`cont` on the remainder.  The top-level call passes the length of the longest
non-slash run of `xs`. -/
def starCore (cont : Str → Option (List Str)) (xs : Str) : Nat → Option (List Str)
  | 0 => none
  | Nat.succ n =>
    if n + 1 ≤ (xs.takeWhile nonSlash).length then
      match cont (xs.drop (n + 1)) with
      | some ps => some (xs.take (n + 1) :: ps)
      | none => starCore cont xs n
    else starCore cont xs n

/-- Modelled from the spec: the regex engine behind `re.compile` is an
external library, so the behaviour of the compiled matcher is taken from the
specification of the compile step: the match is anchored at both ends, every
non-wildcard character matches itself literally, and each `*` becomes a group
matching one or more non-`/` characters, captured positionally.  A successful
match returns the list of captures in left-to-right order. -/
def matchToks : List Tok → Str → Option (List Str)
  | [], xs => if xs = [] then some [] else none
  | .lit c :: ts, xs =>
    match xs with
    | [] => none
    | x :: rest => if x = c then matchToks ts rest else none
  | .star :: ts, xs => starCore (matchToks ts) xs (xs.takeWhile nonSlash).length

/-- Substituting captures back into a token sequence: `expand ts ps` is the
unique path text a match with captures `ps` must have consumed. -/
def expand : List Tok → List Str → Option Str
  | [], [] => some []
  | [], _ :: _ => none
  | .lit c :: ts, ps => (expand ts ps).map fun r => c :: r
  | .star :: _, [] => none
  | .star :: ts, p :: ps => (expand ts ps).map fun r => p ++ r

/-- Number of capturing groups of a compiled pattern. -/
def starCount : List Tok → Nat
  | [] => 0
  | .star :: ts => starCount ts + 1
  | .lit _ :: ts => starCount ts

/-- `route.count("*")`. -/
def countStar (route : Str) : Nat := route.count '*'

/-- One entry of `self.routes`: the Python list `[pattern, handler, methods]`
plus the compiled regexes `compileRegexRoutes` appends at indexes 3, 4, ....
Every route built through the module's registration paths has the first three
elements; `regexes.head?` is the element at index 3, the one `handle`
consults. -/
structure RouteConfig where
  pattern : Str
  handler : Handler
  methods : Str
  regexes : List (List Tok)

/-- The sort key of `MicropAsyncWeb.sortRoutes`:
`len(routeConfig[0].replace("*", "/").split("/"))`. -/
def routeSorter (rc : RouteConfig) : Nat :=
  (splitOnChar '/' (rc.pattern.map fun c => if c = '*' then '/' else c)).length

/-- Stable insertion of one entry into an already sorted table: the entry
goes before the first entry with a strictly larger... rather, before the
first entry whose key is not smaller, so entries with equal keys keep their
registration order. -/
def insertSorted (x : RouteConfig) : List RouteConfig → List RouteConfig
  | [] => [x]
  | y :: ys => if routeSorter y < routeSorter x then y :: insertSorted x ys else x :: y :: ys

/-- `MicropAsyncWeb.sortRoutes`: Python `sorted` with key `routeSorter` is a
stable ascending sort, realised here as a stable insertion sort. -/
def sortRoutes : List RouteConfig → List RouteConfig
  | [] => []
  | x :: xs => insertSorted x (sortRoutes xs)

/-- `MicropAsyncWeb.compileRegexRoutes`: for every entry whose pattern
contains `*`, append the compiled regex to the entry. -/
def compileRegexRoutes (routes : List RouteConfig) : List RouteConfig :=
  routes.map fun rc =>
    if '*' ∈ rc.pattern then { rc with regexes := rc.regexes ++ [compileRoute rc.pattern] }
    else rc

/-- `MicropAsyncWeb.fileRouteHandler`: serve `"%s/%s" % (webroot, filename)`
where `filename` defaults to the index file when the path has an empty last
segment; the callable returns `None`. -/
def fileRouteHandler (webroot indexFile : Str) : Handler :=
  .fn fun fs req =>
    let filename := if req.getFilename = [] then indexFile else req.getFilename
    let r := sendFile fs req (webroot ++ [ '/' ] ++ filename)
    (r.1, r.2.map fun _ => none)

/-- The two routes `MicropAsyncWeb.__init__` pre-registers. -/
def defaultRoutes (webroot indexFile : Str) : List RouteConfig :=
  [⟨s "/", fileRouteHandler webroot indexFile, s "GET", []⟩,
   ⟨s "/*", fileRouteHandler webroot indexFile, s "GET", []⟩]

/-- The table preparation `runAsync` performs before accepting connections:
`compileRegexRoutes` then `sortRoutes`. -/
def prepared (routes : List RouteConfig) : List RouteConfig :=
  sortRoutes (compileRegexRoutes routes)

/-- How the route-matching `for` loop of `MicropAsyncWeb.handle` ends. -/
inductive LoopRes where
  | matched
  | exhausted (found : Bool)
  | exc (e : Exc)
deriving Repr, DecidableEq

/-- The route-matching `for` loop of `MicropAsyncWeb.handle`, with the
running request state, the `found` flag and the accumulated writes made
explicit.  A literal match runs the handler and breaks; its exception (if
any) escapes the loop.  A regex match appends the captures
`match.group(1) .. match.group(route.count("*"))` to `params`, assigns
`route`, sets `found` and runs the handler, all inside `try`; on any
exception the bare `except` resets `params` to `[]` and the loop continues
with the next entry.  When `route.count("*")` exceeds the number of groups
the `match.group` call itself raises, so `params` is reset (after the partial
appends) and `route` and `found` are left as they were. -/
def tryRoutes (fs : FS) (fuel : Nat) :
    Request → Bool → List RouteConfig → Option (Request × List Str × LoopRes)
  | req, found, [] => some (req, [], .exhausted found)
  | req, found, rc :: rest =>
    if req.method ∈ splitOnChar ',' rc.methods then
      if req.path = rc.pattern then
        match generateOutput fs fuel req (some rc.handler) with
        | none => none
        | some (out, .ok _) => some (req, out, .matched)
        | some (out, .error e) => some (req, out, .exc e)
      else
        match rc.regexes.head? with
        | none => tryRoutes fs fuel req found rest
        | some tks =>
          match matchToks tks req.path with
          | none => tryRoutes fs fuel req found rest
          | some ps =>
            if countStar rc.pattern ≤ ps.length then
              let req' := { req with
                params := req.params ++ ps.take (countStar rc.pattern),
                route := rc.pattern }
              match generateOutput fs fuel req' (some rc.handler) with
              | none => none
              | some (out, .ok _) => some (req', out, .matched)
              | some (out, .error _) =>
                match tryRoutes fs fuel { req' with params := [] } true rest with
                | none => none
                | some (req2, out2, lr) => some (req2, out ++ out2, lr)
            else
              tryRoutes fs fuel { req with params := [] } found rest
    else tryRoutes fs fuel req found rest

/-- The header whitelist `MicropAsyncWeb.requestHeadersToKeep`. -/
def requestHeadersToKeep : List Str :=
  [s "Authorization", s "Content-Length", s "Content-Type"]

/-- Python dict assignment `d[k] = v` on an insertion-ordered dictionary. -/
def dictSet (d : List (Str × Str)) (k v : Str) : List (Str × Str) :=
  if d.any (fun p => p.1 = k) then d.map fun p => if p.1 = k then (k, v) else p
  else d ++ [(k, v)]

/-- Python `line.split(":", 1)`: `some` holds the two pieces when the line
contains a colon, `none` is the single-piece case that ends header reading. -/
def splitColon1 (line : Str) : Option (Str × Str) :=
  if ':' ∈ line then some (line.takeWhile (fun c => c ≠ ':'), (line.dropWhile fun c => c ≠ ':').tail)
  else none

/-- The header-reading loop of `MicropAsyncWeb.handle`: consume lines until a
line without `:` (an exhausted stream reads as the empty line); keep the
whitelisted headers with their values stripped.  Returns the final headers
dictionary and how many of the supplied lines were consumed. -/
def readHeaders (hdrs : List (Str × Str)) : List Str → List (Str × Str) × Nat
  | [] => (hdrs, 0)
  | line :: rest =>
    match splitColon1 line with
    | some (h, v) =>
      let hdrs' := if h ∈ requestHeadersToKeep then dictSet hdrs h (pyStrip v) else hdrs
      let r := readHeaders hdrs' rest
      (r.1, r.2 + 1)
    | none => (hdrs, 1)

/-- Everything `MicropAsyncWeb.handle` leaves behind for one connection:
the write-call payloads in order, how many header lines were consumed after
the request line, the final request state, the exception propagating out of
`handle` (after the `finally`), and whether the stream was closed — the
`finally: await writer.aclose()` makes this `true` on every path. -/
structure Outcome where
  output : List Str
  headersConsumed : Nat
  request : Request
  fatal : Option Exc
  closed : Bool
deriving Repr, DecidableEq

/-- The body of `MicropAsyncWeb.handle` after `Request.setup`: the version
guard (raising `HttpError(505, "Version Not Supported")` before any header is
read), the header loop, the route loop, `HttpError(404, "File Not Found")`
when nothing matched, the `except HttpError` arm writing the error response,
the `except OSError` arm swallowing `ECONNRESET` and re-raising the rest, and
the unconditional close. -/
def dispatch (fs : FS) (fuel : Nat) (routes : List RouteConfig) (req : Request)
    (headerLines : List Str) : Option Outcome :=
  if req.version = s "HTTP/1.0" ∨ req.version = s "HTTP/1.1" then
    let hc := readHeaders req.headers headerLines
    let req1 := { req with headers := hc.1 }
    match tryRoutes fs fuel req1 false routes with
    | none => none
    | some (req2, out, .matched) => some ⟨out, hc.2, req2, none, true⟩
    | some (req2, out, .exhausted true) => some ⟨out, hc.2, req2, none, true⟩
    | some (req2, out, .exhausted false) =>
      some ⟨out ++ errorWrites 404 (s "File Not Found"), hc.2, req2, none, true⟩
    | some (req2, out, .exc (.httpError code reason)) =>
      some ⟨out ++ errorWrites code reason, hc.2, req2, none, true⟩
    | some (req2, out, .exc (.osError e)) =>
      some ⟨out, hc.2, req2, if e = ECONNRESET then none else some (.osError e), true⟩
    | some (req2, out, .exc .other) => some ⟨out, hc.2, req2, some .other, true⟩
  else
    some ⟨errorWrites 505 (s "Version Not Supported"), 0, req, none, true⟩

/-- `MicropAsyncWeb.handle`: build a fresh request, parse the request line,
then dispatch. -/
def handle (fs : FS) (fuel : Nat) (routes : List RouteConfig) (requestLine : Str)
    (headerLines : List Str) : Option Outcome :=
  dispatch fs fuel routes (Request.init.setup requestLine) headerLines

/-!
Heap model for the aliasing question of `Request.__init__`: Python attribute
assignment semantics.  The class body of `Request` allocates one shared dict
for the class attribute `headers` (the class attribute `params` is `None` and
`route` is an immutable string, so only the dict has shared mutable state at
class level); `__init__` assigns `self.headers = {}`, `self.route = ""` and
`self.params = []`, allocating one fresh dict and one fresh list per
instance.  Allocation is modelled by a store of all dicts and all lists, the
address of a container being its index. -/

/-- The store of allocated mutable containers. -/
structure Store where
  dicts : List (List (Str × Str))
  lists : List (List Str)
deriving Repr, DecidableEq

/-- The store right after the class body of `Request` ran: exactly the
class-level `headers` dict exists (empty), no list. -/
def Store.class0 : Store := ⟨[[]], []⟩

/-- Address of the class attribute `Request.headers`. -/
def classHeadersRef : Nat := 0

/-- An instance of class `Request`, reduced to the attributes `__init__`
assigns: the addresses of its own `headers` dict and `params` list, and the
immutable string stored in `route`. -/
structure PyRequest where
  headersRef : Nat
  paramsRef : Nat
  route : Str
deriving Repr, DecidableEq

/-- `Request()` under Python semantics: `__init__` allocates a fresh empty
dict for `self.headers`, assigns `self.route = ""` and allocates a fresh
empty list for `self.params`. -/
def pyInit (σ : Store) : Store × PyRequest :=
  let hRef := σ.dicts.length
  let σ1 : Store := ⟨σ.dicts ++ [[]], σ.lists⟩
  let pRef := σ1.lists.length
  let σ2 : Store := ⟨σ1.dicts, σ1.lists ++ [[]]⟩
  (σ2, ⟨hRef, pRef, []⟩)

/-- Contents of the dict at an address. -/
def Store.getDict (σ : Store) (ref : Nat) : List (Str × Str) := σ.dicts.getD ref []

/-- Contents of the list at an address. -/
def Store.getList (σ : Store) (ref : Nat) : List Str := σ.lists.getD ref []

/-- Mutation of the dict at an address (for example
`request.headers[header] = value` during one dispatch). -/
def Store.setDict (σ : Store) (ref : Nat) (v : List (Str × Str)) : Store :=
  ⟨σ.dicts.set ref v, σ.lists⟩

/-- Mutation of the list at an address (for example
`request.params.append(...)` during one dispatch). -/
def Store.setList (σ : Store) (ref : Nat) (v : List Str) : Store :=
  ⟨σ.dicts, σ.lists.set ref v⟩

/-!
Concrete fixtures used by the counterexamples and witnesses. -/

/-- A file system where no file exists. -/
def fsNone : FS := fun _ => .err ENOENT

/-- A file system where every open fails with `EACCES` (permission denied). -/
def fsPerm : FS := fun _ => .err 13

/-- A file system holding only `./index.html`, served as one chunk. -/
def fsIndex : FS := fun p =>
  if p = s "./index.html" then .ok [s "HELLO"] none else .err ENOENT

/-- The default server table (`webroot="."`, `indexFile="index.html"`) after
`runAsync` prepared it. -/
def table0 : List RouteConfig := prepared (defaultRoutes (s ".") (s "index.html"))

/-- A registered callable whose invocation always raises. -/
def throwH : Handler := .fn fun _ _ => ([], .error .other)

/-- A registered callable that writes one chunk and returns `None`. -/
def okH : Handler := .fn fun _ _ => ([s "X"], .ok none)

/-- A server table registered through the module API: the two default routes
plus the user routes `["/a/*", throwH]` and `["/*/b", okH]` appended by
`appendRoutes`, then prepared by `runAsync`.  After the stable ascending sort
the order is `/`, `/*`, `/a/*`, `/*/b` (the last two tie with key 4 and
keep registration order). -/
def tableC2 : List RouteConfig :=
  prepared (defaultRoutes (s ".") (s "index.html") ++
    [⟨s "/a/*", throwH, s "GET", []⟩, ⟨s "/*/b", okH, s "GET", []⟩])

/-!
Helper lemmas. -/

/-- Membership in a stable insertion. -/
theorem mem_insertSorted (x a : RouteConfig) (l : List RouteConfig) :
    a ∈ insertSorted x l ↔ a = x ∨ a ∈ l := by
  induction l with
  | nil => simp [insertSorted]
  | cons y ys ih =>
    by_cases hc : routeSorter y < routeSorter x
    · simp only [insertSorted, if_pos hc, List.mem_cons, ih]
      tauto
    · simp only [insertSorted, if_neg hc, List.mem_cons]

/-- Stable insertion preserves sortedness by the route key. -/
theorem pairwise_insertSorted (x : RouteConfig) (l : List RouteConfig)
    (h : List.Pairwise (fun a b => routeSorter a ≤ routeSorter b) l) :
    List.Pairwise (fun a b => routeSorter a ≤ routeSorter b) (insertSorted x l) := by
  induction l with
  | nil => simp [insertSorted]
  | cons y ys ih =>
    rcases List.pairwise_cons.mp h with ⟨hy, hys⟩
    by_cases hc : routeSorter y < routeSorter x
    · rw [insertSorted, if_pos hc]
      refine List.pairwise_cons.mpr ⟨?_, ih hys⟩
      intro z hz
      rcases (mem_insertSorted x z ys).mp hz with rfl | hz'
      · exact Nat.le_of_lt hc
      · exact hy z hz'
    · rw [insertSorted, if_neg hc]
      refine List.pairwise_cons.mpr ⟨?_, h⟩
      intro z hz
      rcases List.mem_cons.mp hz with rfl | hz'
      · exact Nat.le_of_not_lt hc
      · exact Nat.le_trans (Nat.le_of_not_lt hc) (hy z hz')

/-- Entries with the key of the inserted entry: the inserted one lands in
front of them. -/
theorem filter_insertSorted_eq (x : RouteConfig) (l : List RouteConfig) (k : Nat)
    (hx : routeSorter x = k) :
    (insertSorted x l).filter (fun rc => routeSorter rc == k) =
      x :: l.filter (fun rc => routeSorter rc == k) := by
  induction l with
  | nil => simp [insertSorted, hx]
  | cons y ys ih =>
    by_cases hc : routeSorter y < routeSorter x
    · have hyk : (routeSorter y == k) = false := by
        subst hx
        simp only [beq_eq_false_iff_ne, ne_eq]
        omega
      rw [insertSorted, if_pos hc]
      simp only [List.filter_cons, hyk, ih]
      simp
    · rw [insertSorted, if_neg hc]
      simp only [List.filter_cons, hx, beq_self_eq_true]
      simp

/-- Entries with a key different from the inserted entry are untouched. -/
theorem filter_insertSorted_ne (x : RouteConfig) (l : List RouteConfig) (k : Nat)
    (hx : routeSorter x ≠ k) :
    (insertSorted x l).filter (fun rc => routeSorter rc == k) =
      l.filter (fun rc => routeSorter rc == k) := by
  induction l with
  | nil => simp [insertSorted, hx]
  | cons y ys ih =>
    by_cases hc : routeSorter y < routeSorter x
    · rw [insertSorted, if_pos hc]
      simp only [List.filter_cons, ih]
    · rw [insertSorted, if_neg hc]
      simp only [List.filter_cons]
      have hxk : (routeSorter x == k) = false := by simpa using hx
      rw [hxk]
      simp

/-- C5 helper: the sort is stable, phrased per key. -/
theorem sortRoutes_filter (l : List RouteConfig) (k : Nat) :
    (sortRoutes l).filter (fun rc => routeSorter rc == k) =
      l.filter (fun rc => routeSorter rc == k) := by
  induction l with
  | nil => rfl
  | cons x xs ih =>
    by_cases hx : routeSorter x = k
    · rw [sortRoutes, filter_insertSorted_eq x (sortRoutes xs) k hx, ih]
      simp [List.filter_cons, hx]
    · rw [sortRoutes, filter_insertSorted_ne x (sortRoutes xs) k hx, ih]
      have hxk : (routeSorter x == k) = false := by simpa using hx
      simp [List.filter_cons, hxk]

/-- **C5.** After `sortRoutes`, the table is sorted ascending by
`routeSorter` — the number of `/`-delimited segments of the pattern after
replacing each `*` by `/` — so each entry's key is less than or equal to the
key of every later entry (in particular of the adjacent one), and for every
key value the subsequence of entries carrying that key is exactly the
subsequence they formed in registration order (stability). -/
theorem c5_sort_sorted_stable (routes : List RouteConfig) :
    List.Pairwise (fun a b => routeSorter a ≤ routeSorter b) (sortRoutes routes) ∧
      ∀ k, (sortRoutes routes).filter (fun rc => routeSorter rc == k) =
        routes.filter (fun rc => routeSorter rc == k) := by
  refine ⟨?_, fun k => sortRoutes_filter routes k⟩
  induction routes with
  | nil => simp [sortRoutes]
  | cons x xs ih => exact pairwise_insertSorted x (sortRoutes xs) ih

/-- The leading non-slash run is no longer than the whole string. -/
theorem length_takeWhile_bound (p : Char → Bool) (l : List Char) :
    (l.takeWhile p).length ≤ l.length := by
  induction l with
  | nil => simp
  | cons x xs ih =>
    rw [List.takeWhile_cons]
    by_cases hx : p x = true
    · simp only [if_pos hx, List.length_cons]
      omega
    · simp only [if_neg hx, List.length_nil]
      omega

/-- What a successful group match produced: a capture of some positive
length `m` within the leading non-slash run, and a successful continuation on
the rest. -/
theorem starCore_spec (cont : Str → Option (List Str)) (xs : Str) :
    ∀ (n : Nat) (res : List Str), starCore cont xs n = some res →
      ∃ m ps, 1 ≤ m ∧ m ≤ (xs.takeWhile nonSlash).length ∧
        cont (xs.drop m) = some ps ∧ res = xs.take m :: ps := by
  intro n
  induction n with
  | zero => intro res h; simp [starCore] at h
  | succ n ih =>
    intro res h
    rw [starCore] at h
    split at h
    case isTrue hle =>
      split at h
      case h_1 ps heq =>
        refine ⟨n + 1, ps, by omega, hle, heq, ?_⟩
        exact (Option.some.injEq _ _).mp h.symm
      case h_2 heq => exact ih res h
    case isFalse => exact ih res h

/-- A front slice of the leading non-slash run holds no `/`. -/
theorem take_nonSlash (xs : Str) (m : Nat) (h : m ≤ (xs.takeWhile nonSlash).length) :
    ∀ c ∈ xs.take m, c ≠ '/' := by
  have hxs : xs.take m = (xs.takeWhile nonSlash).take m := by
    conv_lhs => rw [← @List.takeWhile_append_dropWhile _ nonSlash xs]
    rw [List.take_append_eq_append_take, Nat.sub_eq_zero_of_le h]
    simp
  intro c hc
  rw [hxs] at hc
  have := List.mem_takeWhile_imp (List.take_subset m _ hc)
  simpa [nonSlash] using this

/-- Core correctness of the modelled matcher: a successful anchored match
yields one capture per group in left-to-right order, every capture is a
non-empty slash-free string, and substituting the captures back into the
pattern reproduces the whole matched text (both anchors honoured). -/
theorem matchToks_spec :
    ∀ (ts : List Tok) (xs : Str) (ps : List Str), matchToks ts xs = some ps →
      ps.length = starCount ts ∧ (∀ p ∈ ps, p ≠ [] ∧ ∀ c ∈ p, c ≠ '/') ∧
        expand ts ps = some xs := by
  intro ts
  induction ts with
  | nil =>
    intro xs ps h
    rw [matchToks] at h
    split at h
    case isTrue hxs =>
      cases h
      subst hxs
      exact ⟨rfl, by simp, rfl⟩
    case isFalse => cases h
  | cons t ts ih =>
    cases t with
    | lit c =>
      intro xs ps h
      cases xs with
      | nil =>
        have he : matchToks (Tok.lit c :: ts) ([] : Str) = none := rfl
        rw [he] at h
        cases h
      | cons x rest =>
        have he : matchToks (Tok.lit c :: ts) (x :: rest) =
            if x = c then matchToks ts rest else none := rfl
        rw [he] at h
        split at h
        case isTrue hx =>
          obtain ⟨h1, h2, h3⟩ := ih rest ps h
          subst hx
          exact ⟨h1, h2, by simp [expand, h3]⟩
        case isFalse => cases h
    | star =>
      intro xs ps h
      rw [matchToks] at h
      obtain ⟨m, ps', hm1, hm2, hcont, rfl⟩ := starCore_spec (matchToks ts) xs _ _ h
      obtain ⟨h1, h2, h3⟩ := ih _ _ hcont
      have hmlen : m ≤ xs.length := Nat.le_trans hm2 (length_takeWhile_bound nonSlash xs)
      refine ⟨by simp [starCount, h1], ?_, ?_⟩
      · intro p hp
        rcases List.mem_cons.mp hp with rfl | hp'
        · refine ⟨?_, take_nonSlash xs m hm2⟩
          have : (xs.take m).length = m := by
            rw [List.length_take]
            omega
          intro hnil
          rw [hnil] at this
          simp at this
          omega
        · exact h2 p hp'
      · simp only [expand, h3]
        simp [List.take_append_drop]

/-- The number of groups of a compiled route equals `route.count("*")`. -/
theorem starCount_compileRoute (route : Str) :
    starCount (compileRoute route) = countStar route := by
  induction route with
  | nil => rfl
  | cons c cs ih =>
    by_cases hc : c = '*'
    · subst hc
      simp [compileRoute, starCount, countStar, List.count_cons] at ih ⊢
      omega
    · simp only [compileRoute, List.map_cons, if_neg hc, starCount, countStar,
        List.count_cons] at ih ⊢
      have hb : (c == '*') = false := by
        simp only [beq_eq_false_iff_ne, ne_eq]
        exact hc
      rw [hb]
      simpa [countStar] using ih

/-- **C6.** For a wildcard pattern, the compiled matcher
`^ route.replace("*", "([^/]+)") $` behaves as specified: a successful match
against a path yields exactly `route.count("*")` captured parameters, each
capture is one or more non-`/` characters, and substituting the captures
back for the `*` markers in left-to-right order reproduces exactly the whole
path — the match is anchored at both ends. -/
theorem c6_wildcard_match (pattern path : Str) (ps : List Str)
    (h : matchToks (compileRoute pattern) path = some ps) :
    ps.length = countStar pattern ∧ (∀ p ∈ ps, p ≠ [] ∧ ∀ c ∈ p, c ≠ '/') ∧
      expand (compileRoute pattern) ps = some path := by
  have hs := matchToks_spec (compileRoute pattern) path ps h
  rwa [starCount_compileRoute] at hs

/-- Witness for C6 at the pattern `/users/*` and the path `/users/42`. -/
theorem c6_wildcard_match_witness :
    ([s "42"] : List Str).length = countStar (s "/users/*") ∧
      (∀ p ∈ ([s "42"] : List Str), p ≠ [] ∧ ∀ c ∈ p, c ≠ '/') ∧
      expand (compileRoute (s "/users/*")) [s "42"] = some (s "/users/42") :=
  c6_wildcard_match (s "/users/*") (s "/users/42") [s "42"] (by rfl)

/-- **C8.** When the parsed version token is neither `HTTP/1.0` nor
`HTTP/1.1`, `handle` raises `HttpError(505, "Version Not Supported")` before
the header loop: the response is exactly the two error writes for code 505
with that reason, and zero header lines are consumed from the stream. -/
theorem c8_unsupported_version (fs : FS) (fuel : Nat) (routes : List RouteConfig)
    (line : Str) (headerLines : List Str)
    (h1 : (Request.init.setup line).version ≠ s "HTTP/1.0")
    (h2 : (Request.init.setup line).version ≠ s "HTTP/1.1") :
    handle fs fuel routes line headerLines =
      some ⟨errorWrites 505 (s "Version Not Supported"), 0,
        Request.init.setup line, none, true⟩ := by
  have hv : ¬ ((Request.init.setup line).version = s "HTTP/1.0" ∨
      (Request.init.setup line).version = s "HTTP/1.1") := by
    rintro (h | h)
    · exact h1 h
    · exact h2 h
  rw [handle, dispatch, if_neg hv]

/-- Witness for C8: `GET / HTTP/0.9` with a pending header line; the header
line is not consumed. -/
theorem c8_unsupported_version_witness :
    handle fsNone 9 table0 (s "GET / HTTP/0.9\r\n") [s "Authorization: x"] =
      some ⟨errorWrites 505 (s "Version Not Supported"), 0,
        Request.init.setup (s "GET / HTTP/0.9\r\n"), none, true⟩ :=
  c8_unsupported_version fsNone 9 table0 (s "GET / HTTP/0.9\r\n")
    [s "Authorization: x"] (by decide) (by decide)

/-- The head of a list with one appended element. -/
theorem head?_append_one {α : Type} (l : List α) (x : α) :
    (l ++ [x]).head? = some (l.headD x) := by
  cases l <;> simp

/-- The route loop only looks at four views of an entry: the pattern, the
handler, the methods string and the first stored regex; entries related
pointwise this way induce the same loop behaviour. -/
theorem tryRoutes_congr (fs : FS) (fuel : Nat) :
    ∀ {l₁ l₂ : List RouteConfig},
      List.Forall₂ (fun a b => a.pattern = b.pattern ∧ a.handler = b.handler ∧
        a.methods = b.methods ∧ a.regexes.head? = b.regexes.head?) l₁ l₂ →
      ∀ req found, tryRoutes fs fuel req found l₁ = tryRoutes fs fuel req found l₂ := by
  intro l₁ l₂ hf
  induction hf with
  | nil => intro req found; rfl
  | cons hab hrest ih =>
    obtain ⟨h1, h2, h3, h4⟩ := hab
    intro req found
    simp only [tryRoutes, h1, h2, h3, h4, ih]

/-- Compiling an already compiled table leaves the four views unchanged:
patterns, handlers and methods are untouched and the regex at index 3 (the
one the dispatcher uses) is the same, even though a second copy has been
appended behind it. -/
theorem compile_twice_rel (routes : List RouteConfig) :
    List.Forall₂ (fun a b => a.pattern = b.pattern ∧ a.handler = b.handler ∧
      a.methods = b.methods ∧ a.regexes.head? = b.regexes.head?)
      (compileRegexRoutes (compileRegexRoutes routes)) (compileRegexRoutes routes) := by
  induction routes with
  | nil => simp [compileRegexRoutes]
  | cons rc rest ih =>
    simp only [compileRegexRoutes, List.map_cons] at ih ⊢
    refine List.Forall₂.cons ?_ ih
    by_cases hs : '*' ∈ rc.pattern
    · simp only [if_pos hs]
      refine ⟨trivial, trivial, trivial, ?_⟩
      rw [head?_append_one, head?_append_one]
      cases rc.regexes <;> simp
    · simp only [if_neg hs]
      exact ⟨trivial, trivial, trivial, trivial⟩

/-- **C9.** Running `compileRegexRoutes` twice gives the same matcher
behaviour as running it once: per entry the pattern and the regex the
dispatcher consults are identical, and consequently the whole route loop
computes the same result on every request, for every file system, fuel and
`found` flag. -/
theorem c9_compile_idempotent (routes : List RouteConfig) :
    (compileRegexRoutes (compileRegexRoutes routes)).map
        (fun rc => (rc.pattern, rc.regexes.head?)) =
      (compileRegexRoutes routes).map (fun rc => (rc.pattern, rc.regexes.head?)) ∧
    ∀ (fs : FS) (fuel : Nat) (req : Request) (found : Bool),
      tryRoutes fs fuel req found (compileRegexRoutes (compileRegexRoutes routes)) =
        tryRoutes fs fuel req found (compileRegexRoutes routes) := by
  refine ⟨?_, fun fs fuel req found => tryRoutes_congr fs fuel (compile_twice_rel routes) req found⟩
  have hmap : ∀ {l₁ l₂ : List RouteConfig},
      List.Forall₂ (fun a b => a.pattern = b.pattern ∧ a.handler = b.handler ∧
        a.methods = b.methods ∧ a.regexes.head? = b.regexes.head?) l₁ l₂ →
      l₁.map (fun rc => (rc.pattern, rc.regexes.head?)) =
        l₂.map (fun rc => (rc.pattern, rc.regexes.head?)) := by
    intro l₁ l₂ h
    induction h with
    | nil => rfl
    | cons hab hrest ih =>
      obtain ⟨h1, _, _, h4⟩ := hab
      simp [h1, h4, ih]
  exact hmap (compile_twice_rel routes)

/-- **C1 counterexample.** The request line `GET /` does not split into three
tokens, yet the connection is not abandoned silently: the dispatcher writes a
full 505 error response before closing. -/
theorem c1_counterexample :
    handle fsNone 9 table0 (s "GET /\r\n") [] =
      some ⟨errorWrites 505 (s "Version Not Supported"), 0, Request.init, none, true⟩ ∧
    errorWrites 505 (s "Version Not Supported") ≠ [] :=
  ⟨rfl, by decide⟩

/-- **C1 (amended).** A request line that does not split into exactly three
whitespace-separated tokens leaves the request fields at their empty
defaults, so the version guard fires: instead of a silent abandonment the
dispatcher writes the 505 `Version Not Supported` error response (and reads
no header line) before the connection is closed. -/
theorem c1_amended (fs : FS) (fuel : Nat) (routes : List RouteConfig)
    (line : Str) (headerLines : List Str)
    (h : (pySplitWs line).length ≠ 3) :
    handle fs fuel routes line headerLines =
      some ⟨errorWrites 505 (s "Version Not Supported"), 0, Request.init, none, true⟩ := by
  have hsetup : Request.init.setup line = Request.init := by
    rw [Request.setup]
    split
    case h_1 m u v heq => rw [heq] at h; simp at h
    case h_2 => rfl
  rw [handle, hsetup, dispatch, if_neg]
  rintro (hv | hv) <;> cases hv

/-- Witness for C1 (amended): the empty request line (peer closed without
sending anything). -/
theorem c1_amended_witness :
    handle fsNone 9 table0 (s "") [] =
      some ⟨errorWrites 505 (s "Version Not Supported"), 0, Request.init, none, true⟩ :=
  c1_amended fsNone 9 table0 (s "") [] (by decide)

/-- **C2 counterexample.** Table registered through the API: defaults plus
`/a/*` (handler raises) and `/*/b` (handler writes `X`), prepared by
`runAsync`; sorted order is `/`, `/*`, `/a/*`, `/*/b`.  For `GET /a/b` the
wildcard `/a/*` matches first and its handler raises; the bare `except`
resets `params` and the loop then tries — and runs — the later route `/*/b`,
whose write `X` is the response and which re-binds `params` to `["a"]` and
`route` to `/*/b`.  So dispatch does attempt further routes after the failed
match, contradicting the claim. -/
theorem c2_counterexample :
    handle fsNone 9 tableC2 (s "GET /a/b HTTP/1.1\r\n") [] =
      some ⟨[s "X"], 0,
        ⟨s "/a/b", s "/a/b", s "GET", s "HTTP/1.1", [], s "/*/b", [s "a"]⟩, none, true⟩ :=
  rfl

/-- **C2 (amended).** When a wildcard route matches and the handler
invocation raises any error, the bound `params` are discarded (reset to the
empty sequence, with `route` left pointing at the failed pattern) but
dispatch then continues scanning the remaining routes of the table with the
`found` flag already set — the failed match does not end the scan, it only
forfeits the 404 that exhaustion would otherwise produce. -/
theorem c2_amended (fs : FS) (fuel : Nat) (req : Request) (found : Bool)
    (rc : RouteConfig) (rest : List RouteConfig) (tks : List Tok) (ps : List Str)
    (out : List Str) (e : Exc)
    (hm : req.method ∈ splitOnChar ',' rc.methods)
    (hp : req.path ≠ rc.pattern)
    (hh : rc.regexes.head? = some tks)
    (hmt : matchToks tks req.path = some ps)
    (hk : countStar rc.pattern ≤ ps.length)
    (hg : generateOutput fs fuel
        { req with
          params := req.params ++ ps.take (countStar rc.pattern),
          route := rc.pattern } (some rc.handler) = some (out, .error e)) :
    tryRoutes fs fuel req found (rc :: rest) =
      (tryRoutes fs fuel { req with params := [], route := rc.pattern } true rest).map
        (fun r => (r.1, out ++ r.2.1, r.2.2)) := by
  simp only [tryRoutes, if_pos hm, if_neg hp, hh, hmt, if_pos hk, hg]
  cases htr : tryRoutes fs fuel { req with params := [], route := rc.pattern } true rest <;>
    simp

/-- Witness for C2 (amended): the `/a/*` entry of the `tableC2` scenario in
front of the `/*/b` entry, request `GET /a/b`. -/
theorem c2_amended_witness :
    tryRoutes fsNone 9
        ⟨s "/a/b", s "/a/b", s "GET", s "HTTP/1.1", [], [], []⟩ false
        [⟨s "/a/*", throwH, s "GET", [compileRoute (s "/a/*")]⟩,
         ⟨s "/*/b", okH, s "GET", [compileRoute (s "/*/b")]⟩] =
      (tryRoutes fsNone 9
        ⟨s "/a/b", s "/a/b", s "GET", s "HTTP/1.1", [], s "/a/*", []⟩ true
        [⟨s "/*/b", okH, s "GET", [compileRoute (s "/*/b")]⟩]).map
          (fun r => (r.1, [] ++ r.2.1, r.2.2)) :=
  c2_amended fsNone 9 ⟨s "/a/b", s "/a/b", s "GET", s "HTTP/1.1", [], [], []⟩ false
    ⟨s "/a/*", throwH, s "GET", [compileRoute (s "/a/*")]⟩
    [⟨s "/*/b", okH, s "GET", [compileRoute (s "/*/b")]⟩]
    (compileRoute (s "/a/*")) [s "b"] [] .other
    (by decide) (by decide) rfl rfl (by decide) rfl

/-- **C7 counterexample.** `GET /` is matched by the literal route `/` and
the index file is served with a 200 response, yet the request's `route`
field is still the empty string afterwards — the literal branch of the loop
never assigns it, although the pattern `/` is not empty. -/
theorem c7_counterexample :
    handle fsIndex 9 table0 (s "GET / HTTP/1.1\r\n") [] =
      some ⟨[s "HTTP/1.1 200 OK\r\n", s "Content-type: text/html\r\n", s "\r\n",
        s "HELLO"], 0, ⟨s "/", s "/", s "GET", s "HTTP/1.1", [], [], []⟩, none, true⟩ ∧
    (s "/" : Str) ≠ [] :=
  ⟨rfl, by decide⟩

/-- **C7 (amended).** The `route` field is assigned only by the wildcard
(regex) branch of the loop: after any run of the route loop the request's
`route` is either unchanged (in particular still empty for a fresh request —
also when a literal route matched) or equal to the pattern of some
regex-bearing entry of the table whose regex matched (even if that entry's
handler later failed). -/
theorem c7_amended (fs : FS) (fuel : Nat) (routes : List RouteConfig) :
    ∀ (req : Request) (found : Bool) (res : Request × List Str × LoopRes),
      tryRoutes fs fuel req found routes = some res →
      res.1.route = req.route ∨
        ∃ rc ∈ routes, rc.regexes ≠ [] ∧ res.1.route = rc.pattern := by
  induction routes with
  | nil =>
    intro req found res h
    rw [tryRoutes] at h
    cases h
    exact Or.inl rfl
  | cons rc rest ih =>
    intro req found res h
    rw [tryRoutes] at h
    have hnext : ∀ req2 : Request, req2.route = req.route →
        ∀ found2, tryRoutes fs fuel req2 found2 rest = some res →
        res.1.route = req.route ∨
          ∃ rc2 ∈ rc :: rest, rc2.regexes ≠ [] ∧ res.1.route = rc2.pattern := by
      intro req2 hr found2 h2
      rcases ih req2 found2 res h2 with hl | ⟨rc2, hrc2, hne, hroute⟩
      · exact Or.inl (hr ▸ hl)
      · exact Or.inr ⟨rc2, List.mem_cons_of_mem rc hrc2, hne, hroute⟩
    by_cases hm : req.method ∈ splitOnChar ',' rc.methods
    · rw [if_pos hm] at h
      by_cases hp : req.path = rc.pattern
      · rw [if_pos hp] at h
        rcases hg : generateOutput fs fuel req (some rc.handler) with _ | ⟨out, r⟩ <;>
          simp only [hg] at h
        · cases h
        · cases r with
          | ok u => cases h; exact Or.inl rfl
          | error e => cases h; exact Or.inl rfl
      · rw [if_neg hp] at h
        rcases hh : rc.regexes.head? with _ | tks <;> simp only [hh] at h
        · exact hnext req rfl found h
        · have hne : rc.regexes ≠ [] := by
            intro hnil
            rw [hnil] at hh
            cases hh
          rcases hmt : matchToks tks req.path with _ | ps <;> simp only [hmt] at h
          · exact hnext req rfl found h
          · by_cases hk : countStar rc.pattern ≤ ps.length
            · simp only [if_pos hk] at h
              rcases hg : generateOutput fs fuel
                  { req with
                    params := req.params ++ ps.take (countStar rc.pattern),
                    route := rc.pattern } (some rc.handler) with _ | ⟨out, r⟩ <;>
                simp only [hg] at h
              · cases h
              · cases r with
                | ok u =>
                  cases h
                  exact Or.inr ⟨rc, List.mem_cons_self rc rest, hne, rfl⟩
                | error e =>
                  rcases htr : tryRoutes fs fuel
                      { req with params := [], route := rc.pattern } true rest
                      with _ | ⟨req2, out2, lr⟩ <;> simp only [htr] at h
                  · cases h
                  · cases h
                    rcases ih _ _ _ htr with hl | ⟨rc2, hrc2, hne2, hroute⟩
                    · exact Or.inr ⟨rc, List.mem_cons_self rc rest, hne, hl⟩
                    · exact Or.inr ⟨rc2, List.mem_cons_of_mem rc hrc2, hne2, hroute⟩
            · simp only [if_neg hk] at h
              exact hnext { req with params := [] } rfl found h
    · rw [if_neg hm] at h
      exact hnext req rfl found h

/-- C7 witness: the `tableC2` run; the final route is the pattern of the
regex-bearing entry `/*/b`. -/
theorem c7_amended_witness :
    (s "/*/b" : Str) = ([] : Str) ∨
      ∃ rc ∈ tableC2, rc.regexes ≠ [] ∧ (s "/*/b" : Str) = rc.pattern :=
  c7_amended fsNone 9 tableC2
    ⟨s "/a/b", s "/a/b", s "GET", s "HTTP/1.1", [], [], []⟩ false
    (⟨s "/a/b", s "/a/b", s "GET", s "HTTP/1.1", [], s "/*/b", [s "a"]⟩,
      [s "X"], .matched) rfl

/-- A route whose methods admit the request but whose pattern neither equals
the path nor carries a regex is skipped. -/
theorem tryRoutes_skip_no_regex (fs : FS) (fuel : Nat) (req : Request) (found : Bool)
    (rc : RouteConfig) (rest : List RouteConfig)
    (hm : req.method ∈ splitOnChar ',' rc.methods) (hp : req.path ≠ rc.pattern)
    (hh : rc.regexes.head? = none) :
    tryRoutes fs fuel req found (rc :: rest) = tryRoutes fs fuel req found rest := by
  simp only [tryRoutes, if_pos hm, if_neg hp, hh]

/-- A literal match runs the handler and ends the loop; a handler exception
escapes as the loop result. -/
theorem tryRoutes_lit (fs : FS) (fuel : Nat) (req : Request) (found : Bool)
    (rc : RouteConfig) (rest : List RouteConfig) (out : List Str) (r : Except Exc Unit)
    (hm : req.method ∈ splitOnChar ',' rc.methods) (hp : req.path = rc.pattern)
    (hg : generateOutput fs fuel req (some rc.handler) = some (out, r)) :
    tryRoutes fs fuel req found (rc :: rest) =
      some (req, out, match r with | .ok _ => .matched | .error e => .exc e) := by
  simp only [tryRoutes, if_pos hm, if_pos hp, hg]
  cases r <;> rfl

/-- A regex match whose handler raises: `params` reset, `route` kept, scan
continues with `found` set and the partial output in front. -/
theorem tryRoutes_wild_err (fs : FS) (fuel : Nat) (req : Request) (found : Bool)
    (rc : RouteConfig) (rest : List RouteConfig) (tks : List Tok) (ps : List Str)
    (out : List Str) (e : Exc)
    (hm : req.method ∈ splitOnChar ',' rc.methods)
    (hp : req.path ≠ rc.pattern)
    (hh : rc.regexes.head? = some tks)
    (hmt : matchToks tks req.path = some ps)
    (hk : countStar rc.pattern ≤ ps.length)
    (hg : generateOutput fs fuel
        { req with
          params := req.params ++ ps.take (countStar rc.pattern),
          route := rc.pattern } (some rc.handler) = some (out, .error e)) :
    tryRoutes fs fuel req found (rc :: rest) =
      (tryRoutes fs fuel { req with params := [], route := rc.pattern } true rest).map
        (fun r => (r.1, out ++ r.2.1, r.2.2)) := by
  simp only [tryRoutes, if_pos hm, if_neg hp, hh, hmt, if_pos hk, hg]
  cases htr : tryRoutes fs fuel { req with params := [], route := rc.pattern } true rest <;>
    simp

/-- `dispatch` when the loop ends exhausted with `found` already true: no
404, the accumulated output is all the peer receives. -/
theorem dispatch_exhausted_true (fs : FS) (fuel : Nat) (routes : List RouteConfig)
    (req : Request) (headerLines : List Str) (req2 : Request) (out : List Str)
    (hv : req.version = s "HTTP/1.0" ∨ req.version = s "HTTP/1.1")
    (ht : tryRoutes fs fuel { req with headers := (readHeaders req.headers headerLines).1 }
        false routes = some (req2, out, .exhausted true)) :
    dispatch fs fuel routes req headerLines =
      some ⟨out, (readHeaders req.headers headerLines).2, req2, none, true⟩ := by
  simp only [dispatch, if_pos hv, ht]

/-- `dispatch` when an `HttpError` escapes the loop: the uniform error
response is appended to whatever was already written. -/
theorem dispatch_exc_http (fs : FS) (fuel : Nat) (routes : List RouteConfig)
    (req : Request) (headerLines : List Str) (req2 : Request) (out : List Str)
    (code : Nat) (reason : Str)
    (hv : req.version = s "HTTP/1.0" ∨ req.version = s "HTTP/1.1")
    (ht : tryRoutes fs fuel { req with headers := (readHeaders req.headers headerLines).1 }
        false routes = some (req2, out, .exc (.httpError code reason))) :
    dispatch fs fuel routes req headerLines =
      some ⟨out ++ errorWrites code reason, (readHeaders req.headers headerLines).2,
        req2, none, true⟩ := by
  simp only [dispatch, if_pos hv, ht]

/-- `dispatch` when an `OSError` escapes the loop: `ECONNRESET` is swallowed,
anything else propagates as fatal, in both cases after the close. -/
theorem dispatch_exc_os (fs : FS) (fuel : Nat) (routes : List RouteConfig)
    (req : Request) (headerLines : List Str) (req2 : Request) (out : List Str) (n : Nat)
    (hv : req.version = s "HTTP/1.0" ∨ req.version = s "HTTP/1.1")
    (ht : tryRoutes fs fuel { req with headers := (readHeaders req.headers headerLines).1 }
        false routes = some (req2, out, .exc (.osError n))) :
    dispatch fs fuel routes req headerLines =
      some ⟨out, (readHeaders req.headers headerLines).2, req2,
        if n = ECONNRESET then none else some (.osError n), true⟩ := by
  simp only [dispatch, if_pos hv, ht]

/-- A string all of whose characters differ from the separator splits into
itself alone. -/
theorem splitOnChar_no (sep : Char) (l : Str) (h : ∀ c ∈ l, c ≠ sep) :
    splitOnChar sep l = [l] := by
  induction l with
  | nil => rfl
  | cons c cs ih =>
    simp only [splitOnChar]
    rw [if_neg (h c (List.mem_cons_self c cs)),
      ih (fun d hd => h d (List.mem_cons_of_mem c hd))]

/-- A slash-free string is its own leading non-slash run. -/
theorem takeWhile_all_nonSlash (seg : Str) (h : ∀ c ∈ seg, c ≠ '/') :
    seg.takeWhile nonSlash = seg := by
  induction seg with
  | nil => rfl
  | cons c cs ih =>
    have hc : nonSlash c = true := decide_eq_true (h c (List.mem_cons_self c cs))
    rw [List.takeWhile_cons, if_pos hc,
      ih (fun d hd => h d (List.mem_cons_of_mem c hd))]

/-- A single group matches a whole non-empty slash-free string, capturing it. -/
theorem matchToks_star_all (seg : Str) (h1 : seg ≠ []) (h2 : ∀ c ∈ seg, c ≠ '/') :
    matchToks [Tok.star] seg = some [seg] := by
  obtain ⟨n, hn⟩ : ∃ n, seg.length = n + 1 := by
    cases seg with
    | nil => exact absurd rfl h1
    | cons a t => exact ⟨t.length, rfl⟩
  have htw : seg.takeWhile nonSlash = seg := takeWhile_all_nonSlash seg h2
  have he : matchToks [Tok.star] seg =
      starCore (matchToks []) seg (seg.takeWhile nonSlash).length := rfl
  rw [he, htw, hn, starCore, if_pos]
  · have hd : seg.drop (n + 1) = [] := by
      rw [← hn]
      exact List.drop_length seg
    have ht : seg.take (n + 1) = seg := by
      rw [← hn]
      exact List.take_length seg
    rw [hd, ht]
    rfl
  · rw [htw, hn]

/-- The filename of a one-segment path `/seg` with slash-free `seg`. -/
theorem getFilename_wild (seg : Str) (h2 : ∀ c ∈ seg, c ≠ '/') (r : Request)
    (hp : r.path = '/' :: seg) : r.getFilename = seg := by
  rw [Request.getFilename, hp]
  have hsp : splitOnChar '/' ('/' :: seg) = [] :: [seg] := by
    simp only [splitOnChar, if_true]
    rw [splitOnChar_no '/' seg h2]
  rw [hsp]
  rfl

/-- `fileRouteHandler` when the resolved file fails to open: nothing written,
`ENOENT` becomes the 404 `HttpError`, any other errno the re-raised
`OSError`. -/
theorem genFileRoute_err (fs : FS) (webroot indexFile : Str) (fuel n : Nat) (req : Request)
    (hfs : fs (webroot ++ [ '/' ] ++
        (if req.getFilename = [] then indexFile else req.getFilename)) = .err n) :
    generateOutput fs (fuel + 1) req (some (fileRouteHandler webroot indexFile)) =
      some ([], .error (if n = ENOENT then .httpError 404 (s "File Not Found")
        else .osError n)) := by
  simp only [generateOutput, handlerTruthy, fileRouteHandler, sendFile, hfs, if_true,
    Except.map]

/-- The default table on a request `GET /seg` (one non-empty slash-free
segment other than `*`) whose file open fails with any errno: the `/` route
is skipped, `/*` matches and binds `params`, the handler's error is eaten by
the bare `except` (`params` reset, `route` kept) and the loop ends exhausted
with `found` set — for every errno, `ENOENT` or not. -/
theorem tryDefault_wild_err (fs : FS) (webroot index seg : Str) (fuel n : Nat)
    (h1 : seg ≠ []) (h2 : ∀ c ∈ seg, c ≠ '/') (h3 : seg ≠ s "*")
    (hw : fs (webroot ++ [ '/' ] ++ seg) = .err n) :
    tryRoutes fs (fuel + 1)
        ⟨[], '/' :: seg, s "GET", s "HTTP/1.1", [], [], []⟩ false
        (prepared (defaultRoutes webroot index)) =
      some (⟨[], '/' :: seg, s "GET", s "HTTP/1.1", [], s "/*", []⟩, [],
        .exhausted true) := by
  have hprep : prepared (defaultRoutes webroot index) =
      [⟨s "/", fileRouteHandler webroot index, s "GET", []⟩,
       ⟨s "/*", fileRouteHandler webroot index, s "GET", [[Tok.lit '/', Tok.star]]⟩] := rfl
  rw [hprep]
  have hp1 : (⟨[], '/' :: seg, s "GET", s "HTTP/1.1", [], [], []⟩ : Request).path ≠
      s "/" := by
    intro hh
    injection hh with ha hb
    exact h1 hb
  have hp2 : (⟨[], '/' :: seg, s "GET", s "HTTP/1.1", [], [], []⟩ : Request).path ≠
      s "/*" := by
    intro hh
    injection hh with ha hb
    exact h3 hb
  have hmt : matchToks [Tok.lit '/', Tok.star] ('/' :: seg) = some [seg] := by
    have he : matchToks [Tok.lit '/', Tok.star] ('/' :: seg) =
        if '/' = '/' then matchToks [Tok.star] seg else none := rfl
    rw [he, if_pos rfl, matchToks_star_all seg h1 h2]
  have hfn : (⟨[], '/' :: seg, s "GET", s "HTTP/1.1", [], s "/*", [seg]⟩ :
      Request).getFilename = seg := getFilename_wild seg h2 _ rfl
  have hfs2 : fs (webroot ++ [ '/' ] ++
      (if (⟨[], '/' :: seg, s "GET", s "HTTP/1.1", [], s "/*", [seg]⟩ :
          Request).getFilename = []
        then index
        else (⟨[], '/' :: seg, s "GET", s "HTTP/1.1", [], s "/*", [seg]⟩ :
          Request).getFilename)) = .err n := by
    rw [hfn, if_neg h1]
    exact hw
  have hgen := genFileRoute_err fs webroot index fuel n
    ⟨[], '/' :: seg, s "GET", s "HTTP/1.1", [], s "/*", [seg]⟩ hfs2
  have hm1 : (s "GET" : Str) ∈ splitOnChar ',' (s "GET") := by decide
  have hk : countStar (s "/*") ≤ ([seg] : List Str).length := Nat.le.refl
  rw [tryRoutes_skip_no_regex fs (fuel + 1)
      ⟨[], '/' :: seg, s "GET", s "HTTP/1.1", [], [], []⟩ false
      ⟨s "/", fileRouteHandler webroot index, s "GET", []⟩
      [⟨s "/*", fileRouteHandler webroot index, s "GET", [[Tok.lit '/', Tok.star]]⟩]
      hm1 hp1 rfl,
    tryRoutes_wild_err fs (fuel + 1)
      ⟨[], '/' :: seg, s "GET", s "HTTP/1.1", [], [], []⟩ false
      ⟨s "/*", fileRouteHandler webroot index, s "GET", [[Tok.lit '/', Tok.star]]⟩
      [] [Tok.lit '/', Tok.star] [seg] []
      (if n = ENOENT then .httpError 404 (s "File Not Found") else .osError n)
      hm1 hp2 rfl hmt hk hgen]
  rfl

/-- The default table on `GET /` when the index file open fails: the literal
`/` route matches first, the handler's exception escapes the loop — the 404
`HttpError` for errno `ENOENT`, the re-raised `OSError` otherwise. -/
theorem tryDefault_lit_err (fs : FS) (webroot index : Str) (fuel n : Nat)
    (hi : fs (webroot ++ [ '/' ] ++ index) = .err n) :
    tryRoutes fs (fuel + 1) ⟨[], s "/", s "GET", s "HTTP/1.1", [], [], []⟩ false
        (prepared (defaultRoutes webroot index)) =
      some (⟨[], s "/", s "GET", s "HTTP/1.1", [], [], []⟩, [],
        .exc (if n = ENOENT then .httpError 404 (s "File Not Found")
          else .osError n)) := by
  have hprep : prepared (defaultRoutes webroot index) =
      [⟨s "/", fileRouteHandler webroot index, s "GET", []⟩,
       ⟨s "/*", fileRouteHandler webroot index, s "GET", [[Tok.lit '/', Tok.star]]⟩] := rfl
  rw [hprep]
  have hfs2 : fs (webroot ++ [ '/' ] ++
      (if (⟨[], s "/", s "GET", s "HTTP/1.1", [], [], []⟩ : Request).getFilename = []
        then index
        else (⟨[], s "/", s "GET", s "HTTP/1.1", [], [], []⟩ :
          Request).getFilename)) = .err n := hi
  have hgen := genFileRoute_err fs webroot index fuel n
    ⟨[], s "/", s "GET", s "HTTP/1.1", [], [], []⟩ hfs2
  have hm1 : (s "GET" : Str) ∈ splitOnChar ',' (s "GET") := by decide
  rw [tryRoutes_lit fs (fuel + 1)
      ⟨[], s "/", s "GET", s "HTTP/1.1", [], [], []⟩ false
      ⟨s "/", fileRouteHandler webroot index, s "GET", []⟩
      [⟨s "/*", fileRouteHandler webroot index, s "GET", [[Tok.lit '/', Tok.star]]⟩]
      [] (.error (if n = ENOENT then .httpError 404 (s "File Not Found") else .osError n))
      hm1 rfl hgen]

/-- **C3 counterexample.** Default server, empty file system, `GET
/nofile.txt`: the path is routed to static serving through the wildcard
route `/*`, the file does not exist — and the client receives nothing at
all: the 404 `HttpError` is swallowed by the bare `except` of the wildcard
branch, the connection closes with zero response bytes. -/
theorem c3_counterexample :
    handle fsNone 9 table0 (s "GET /nofile.txt HTTP/1.1\r\n") [] =
      some ⟨[], 0, ⟨s "/nofile.txt", s "/nofile.txt", s "GET", s "HTTP/1.1", [],
        s "/*", []⟩, none, true⟩ :=
  rfl

/-- **C3 (amended).** With the default routes, a missing file yields the 404
`File Not Found` response only when the request was matched by the literal
route (`GET /` serving the index file): the `HttpError` escapes the loop and
the error response is written.  When the request is routed to static serving
through the wildcard route `/*` (`GET /seg` for a non-empty slash-free
segment other than `*`), the 404 `HttpError` is caught by the bare `except`
of the wildcard branch and the client receives no response at all. -/
theorem c3_amended (webroot index seg : Str) (fs : FS) (fuel : Nat)
    (h1 : seg ≠ []) (h2 : ∀ c ∈ seg, c ≠ '/') (h3 : seg ≠ s "*")
    (hw : fs (webroot ++ [ '/' ] ++ seg) = .err ENOENT)
    (hi : fs (webroot ++ [ '/' ] ++ index) = .err ENOENT) :
    dispatch fs (fuel + 1) (prepared (defaultRoutes webroot index))
        ⟨[], '/' :: seg, s "GET", s "HTTP/1.1", [], [], []⟩ [] =
      some ⟨[], 0, ⟨[], '/' :: seg, s "GET", s "HTTP/1.1", [], s "/*", []⟩,
        none, true⟩ ∧
    dispatch fs (fuel + 1) (prepared (defaultRoutes webroot index))
        ⟨[], s "/", s "GET", s "HTTP/1.1", [], [], []⟩ [] =
      some ⟨errorWrites 404 (s "File Not Found"), 0,
        ⟨[], s "/", s "GET", s "HTTP/1.1", [], [], []⟩, none, true⟩ := by
  constructor
  · exact dispatch_exhausted_true fs (fuel + 1) _ _ [] _ [] (Or.inr rfl)
      (tryDefault_wild_err fs webroot index seg fuel ENOENT h1 h2 h3 hw)
  · have ht := tryDefault_lit_err fs webroot index fuel ENOENT hi
    rw [if_pos rfl] at ht
    exact dispatch_exc_http fs (fuel + 1) _ _ [] _ [] 404 (s "File Not Found")
      (Or.inr rfl) ht

/-- Witness for C3 (amended): document root `.`, index `index.html`, segment
`nofile.txt`, empty file system. -/
theorem c3_amended_witness :
    dispatch fsNone 9 (prepared (defaultRoutes (s ".") (s "index.html")))
        ⟨[], '/' :: s "nofile.txt", s "GET", s "HTTP/1.1", [], [], []⟩ [] =
      some ⟨[], 0, ⟨[], '/' :: s "nofile.txt", s "GET", s "HTTP/1.1", [],
        s "/*", []⟩, none, true⟩ ∧
    dispatch fsNone 9 (prepared (defaultRoutes (s ".") (s "index.html")))
        ⟨[], s "/", s "GET", s "HTTP/1.1", [], [], []⟩ [] =
      some ⟨errorWrites 404 (s "File Not Found"), 0,
        ⟨[], s "/", s "GET", s "HTTP/1.1", [], [], []⟩, none, true⟩ :=
  c3_amended (s ".") (s "index.html") (s "nofile.txt") fsNone 8
    (by decide) (by decide) (by decide) rfl rfl

/-- **C4 counterexample.** Default server, every open fails with `EACCES`
(errno 13, a permission error), `GET /nofile.txt`: the static serve runs
under the wildcard route, so the re-raised `OSError` is caught by the bare
`except` of the wildcard branch — nothing propagates (`fatal` is `none`),
nothing is written, the fault is silently swallowed. -/
theorem c4_counterexample :
    handle fsPerm 9 table0 (s "GET /nofile.txt HTTP/1.1\r\n") [] =
      some ⟨[], 0, ⟨s "/nofile.txt", s "/nofile.txt", s "GET", s "HTTP/1.1", [],
        s "/*", []⟩, none, true⟩ :=
  rfl

/-- **C4 (amended).** With the default routes, a non-`ENOENT` open fault
during static serving is fatal only when the serve was reached through the
literal route: the `OSError` escapes the loop and propagates out of `handle`
(after the close), unless its errno is `ECONNRESET`, which is swallowed.
When the serve was reached through the wildcard route `/*`, the fault is
caught by the bare `except` of the wildcard branch and neither propagates
nor produces a response. -/
theorem c4_amended (webroot index seg : Str) (fs : FS) (fuel n : Nat)
    (h1 : seg ≠ []) (h2 : ∀ c ∈ seg, c ≠ '/') (h3 : seg ≠ s "*")
    (hn : n ≠ ENOENT)
    (hw : fs (webroot ++ [ '/' ] ++ seg) = .err n)
    (hi : fs (webroot ++ [ '/' ] ++ index) = .err n) :
    dispatch fs (fuel + 1) (prepared (defaultRoutes webroot index))
        ⟨[], s "/", s "GET", s "HTTP/1.1", [], [], []⟩ [] =
      some ⟨[], 0, ⟨[], s "/", s "GET", s "HTTP/1.1", [], [], []⟩,
        if n = ECONNRESET then none else some (.osError n), true⟩ ∧
    dispatch fs (fuel + 1) (prepared (defaultRoutes webroot index))
        ⟨[], '/' :: seg, s "GET", s "HTTP/1.1", [], [], []⟩ [] =
      some ⟨[], 0, ⟨[], '/' :: seg, s "GET", s "HTTP/1.1", [], s "/*", []⟩,
        none, true⟩ := by
  constructor
  · have ht := tryDefault_lit_err fs webroot index fuel n hi
    rw [if_neg hn] at ht
    exact dispatch_exc_os fs (fuel + 1) _ _ [] _ [] n (Or.inr rfl) ht
  · exact dispatch_exhausted_true fs (fuel + 1) _ _ [] _ [] (Or.inr rfl)
      (tryDefault_wild_err fs webroot index seg fuel n h1 h2 h3 hw)

/-- Witness for C4 (amended): errno 13 (`EACCES`). -/
theorem c4_amended_witness :
    dispatch fsPerm 9 (prepared (defaultRoutes (s ".") (s "index.html")))
        ⟨[], s "/", s "GET", s "HTTP/1.1", [], [], []⟩ [] =
      some ⟨[], 0, ⟨[], s "/", s "GET", s "HTTP/1.1", [], [], []⟩,
        if 13 = ECONNRESET then none else some (.osError 13), true⟩ ∧
    dispatch fsPerm 9 (prepared (defaultRoutes (s ".") (s "index.html")))
        ⟨[], '/' :: s "nofile.txt", s "GET", s "HTTP/1.1", [], [], []⟩ [] =
      some ⟨[], 0, ⟨[], '/' :: s "nofile.txt", s "GET", s "HTTP/1.1", [],
        s "/*", []⟩, none, true⟩ :=
  c4_amended (s ".") (s "index.html") (s "nofile.txt") fsPerm 8 13
    (by decide) (by decide) (by decide) (by decide) rfl rfl

/-- `getD` at the index right behind a front block reads the first appended
element. -/
theorem listGetD_append_len {α : Type} (l : List α) (x : α) (t : List α) (d : α) :
    (l ++ x :: t).getD l.length d = x := by
  induction l with
  | nil => rfl
  | cons a as ih => simpa using ih

/-- `getD` below the length of the front block ignores the tail. -/
theorem listGetD_append_lt {α : Type} (l t : List α) (j : Nat) (d : α)
    (h : j < l.length) : (l ++ t).getD j d = l.getD j d := by
  induction l generalizing j with
  | nil => simp at h
  | cons a as ih =>
    cases j with
    | zero => rfl
    | succ j' => simpa using ih j' (Nat.lt_of_succ_lt_succ h)

/-- Writing one cell leaves every other cell unchanged. -/
theorem listGetD_set_ne {α : Type} (l : List α) (i j : Nat) (a : α) (d : α)
    (h : i ≠ j) : (l.set i a).getD j d = l.getD j d := by
  induction l generalizing i j with
  | nil => rfl
  | cons x xs ih =>
    cases i with
    | zero =>
      cases j with
      | zero => exact absurd rfl h
      | succ j' => rfl
    | succ i' =>
      cases j with
      | zero => rfl
      | succ j' => simpa using ih i' j' (fun hh => h (by rw [hh]))

/-- **C10.** Two consecutive `Request()` constructions, starting from any
store that already holds the class-level `headers` dict: `__init__` gives
each request its own freshly allocated empty `headers` dict and `params`
list — the addresses differ from each other and from the class-level
default — and its own empty `route` string; consequently mutating the second
request's containers changes neither the first request's containers nor the
class-level default. -/
theorem c10_fresh_request_state (σ : Store) (d : List (Str × Str)) (p : List Str)
    (h : 0 < σ.dicts.length) :
    let a1 := pyInit σ
    let a2 := pyInit a1.1
    (a1.2.headersRef ≠ a2.2.headersRef ∧ a1.2.headersRef ≠ classHeadersRef ∧
      a2.2.headersRef ≠ classHeadersRef ∧ a1.2.paramsRef ≠ a2.2.paramsRef) ∧
    (a1.2.route = [] ∧ a2.2.route = [] ∧
      a2.1.getDict a1.2.headersRef = [] ∧ a2.1.getDict a2.2.headersRef = [] ∧
      a2.1.getList a1.2.paramsRef = [] ∧ a2.1.getList a2.2.paramsRef = []) ∧
    ((a2.1.setDict a2.2.headersRef d).getDict a1.2.headersRef =
        a2.1.getDict a1.2.headersRef ∧
      (a2.1.setDict a2.2.headersRef d).getDict classHeadersRef =
        a2.1.getDict classHeadersRef ∧
      (a2.1.setList a2.2.paramsRef p).getList a1.2.paramsRef =
        a2.1.getList a1.2.paramsRef) := by
  intro a1 a2
  refine ⟨⟨?_, ?_, ?_, ?_⟩, ⟨rfl, rfl, ?_, ?_, ?_, ?_⟩, ⟨?_, ?_, ?_⟩⟩
  · show σ.dicts.length ≠ (σ.dicts ++ [([] : List (Str × Str))]).length
    simp
  · show σ.dicts.length ≠ classHeadersRef
    show σ.dicts.length ≠ 0
    omega
  · show (σ.dicts ++ [[]]).length ≠ classHeadersRef
    show (σ.dicts ++ [[]]).length ≠ 0
    simp
  · show σ.lists.length ≠ (σ.lists ++ [([] : List Str)]).length
    simp
  · show ((σ.dicts ++ [[]]) ++ [[]]).getD σ.dicts.length [] = []
    rw [listGetD_append_lt _ _ _ _ (by simp)]
    exact listGetD_append_len σ.dicts [] [] []
  · show ((σ.dicts ++ [[]]) ++ [[]]).getD (σ.dicts ++ [[]]).length [] = []
    exact listGetD_append_len (σ.dicts ++ [[]]) [] [] []
  · show ((σ.lists ++ [[]]) ++ [[]]).getD σ.lists.length [] = []
    rw [listGetD_append_lt _ _ _ _ (by simp)]
    exact listGetD_append_len σ.lists [] [] []
  · show ((σ.lists ++ [[]]) ++ [[]]).getD (σ.lists ++ [[]]).length [] = []
    exact listGetD_append_len (σ.lists ++ [[]]) [] [] []
  · show (((σ.dicts ++ [[]]) ++ [[]]).set (σ.dicts ++ [[]]).length d).getD
        σ.dicts.length [] = ((σ.dicts ++ [[]]) ++ [[]]).getD σ.dicts.length []
    exact listGetD_set_ne _ _ _ _ _ (by simp)
  · show (((σ.dicts ++ [[]]) ++ [[]]).set (σ.dicts ++ [[]]).length d).getD
        classHeadersRef [] = ((σ.dicts ++ [[]]) ++ [[]]).getD classHeadersRef []
    refine listGetD_set_ne _ _ _ _ _ ?_
    show (σ.dicts ++ [[]]).length ≠ 0
    simp
  · show (((σ.lists ++ [[]]) ++ [[]]).set (σ.lists ++ [[]]).length p).getD
        σ.lists.length [] = ((σ.lists ++ [[]]) ++ [[]]).getD σ.lists.length []
    exact listGetD_set_ne _ _ _ _ _ (by simp)

/-- Witness for C10: the store right after class creation, a one-entry
header dict and a one-entry params list as the mutations. -/
theorem c10_fresh_request_state_witness :
    let a1 := pyInit Store.class0
    let a2 := pyInit a1.1
    (a1.2.headersRef ≠ a2.2.headersRef ∧ a1.2.headersRef ≠ classHeadersRef ∧
      a2.2.headersRef ≠ classHeadersRef ∧ a1.2.paramsRef ≠ a2.2.paramsRef) ∧
    (a1.2.route = [] ∧ a2.2.route = [] ∧
      a2.1.getDict a1.2.headersRef = [] ∧ a2.1.getDict a2.2.headersRef = [] ∧
      a2.1.getList a1.2.paramsRef = [] ∧ a2.1.getList a2.2.paramsRef = []) ∧
    ((a2.1.setDict a2.2.headersRef [(s "Authorization", s "xyz")]).getDict
        a1.2.headersRef = a2.1.getDict a1.2.headersRef ∧
      (a2.1.setDict a2.2.headersRef [(s "Authorization", s "xyz")]).getDict
        classHeadersRef = a2.1.getDict classHeadersRef ∧
      (a2.1.setList a2.2.paramsRef [s "42"]).getList a1.2.paramsRef =
        a2.1.getList a1.2.paramsRef) :=
  c10_fresh_request_state Store.class0 [(s "Authorization", s "xyz")] [s "42"]
    (by decide)
